import Mathlib

/-!
Verification of the computational core of the Electrical Engineering
Calculator app (src/app.py): unit converters, the BMI calculator, the
advanced per-unit (PU) calculator, the ZIP load model with its curve
sampler, and the CSV / PDF result exporters.

Python floats are modelled as exact rationals (ℚ).  Python's `/`
raises `ZeroDivisionError` when the denominator is zero, so every
division appearing in the source is embedded as a checked division
returning `Except CalcError ℚ`.
-/

namespace ElecApp

/-- Domain errors of the calculator: Python's `ZeroDivisionError`. -/
inductive CalcError where
  | divisionByZero
deriving DecidableEq, Repr

/-- Python division: `a / b` raises `ZeroDivisionError` when `b = 0`,
otherwise yields the exact quotient. -/
def pyDiv (a b : ℚ) : Except CalcError ℚ :=
  if b = 0 then .error .divisionByZero else .ok (a / b)

/-! ## Standard converter (src/app.py lines 44-49) -/

/-- The two conversions offered by the standard converter page. -/
inductive ConvKind where
  | LENGTH
  | MASS
deriving DecidableEq, Repr

/-- Embeds the branch of `render_standard_converter`:
meters → kilometers is `value / 1000`, kilograms → grams is `value * 1000`. -/
def convert_length_mass (value : ℚ) : ConvKind → ℚ
  | .LENGTH => value / 1000
  | .MASS => value * 1000

/-! ## Temperature converter (src/app.py lines 57-62) -/

/-- The two directions offered by the temperature converter page. -/
inductive TempDirection where
  | C_TO_F
  | F_TO_C
deriving DecidableEq, Repr

/-- Embeds the branch of `render_temperature_converter`:
`(temp * 9/5) + 32` and `(temp - 32) * 5/9`. -/
def convert_temperature (value : ℚ) : TempDirection → ℚ
  | .C_TO_F => value * 9 / 5 + 32
  | .F_TO_C => (value - 32) * 5 / 9

/-! ## BMI calculator (src/app.py lines 65-72) -/

/-- Embeds `render_bmi_calculator`: the source guards with
`if height > 0:` and only then computes `weight / (height ** 2)`;
for `height ≤ 0` no value is produced (the guarded division would be the
domain error), embedded as the `divisionByZero` domain error. -/
def bmi (weight height : ℚ) : Except CalcError ℚ :=
  if 0 < height then .ok (weight / height ^ 2) else .error .divisionByZero

/-! ## Advanced per-unit calculator (src/app.py lines 79-94) -/

/-- Result record of the per-unit computation, holding the derived base
quantities, the line totals and the per-unit values. -/
structure PerUnitResult where
  Z_base : ℚ
  Y_base : ℚ
  R_total : ℚ
  X_total : ℚ
  B_total : ℚ
  R_pu : ℚ
  X_pu : ℚ
  B_pu : ℚ
deriving DecidableEq, Repr

/-- Embeds the computation of `render_enhanced_per_unit`, line by line:
`Z_base = base_kv**2 / base_mva`, `Y_base = 1 / Z_base`,
`R_total, X_total, B_total = R_per*length, X_per*length, B_per*length`,
`R_pu, X_pu, B_pu = R_total/Z_base, X_total/Z_base, B_total/Y_base`.
Every `/` is Python division, so it raises on a zero denominator. -/
def per_unit (base_mva base_kv length_km r_per_km x_per_km b_per_km : ℚ) :
    Except CalcError PerUnitResult := do
  let Z_base ← pyDiv (base_kv ^ 2) base_mva
  let Y_base ← pyDiv 1 Z_base
  let R_total := r_per_km * length_km
  let X_total := x_per_km * length_km
  let B_total := b_per_km * length_km
  let R_pu ← pyDiv R_total Z_base
  let X_pu ← pyDiv X_total Z_base
  let B_pu ← pyDiv B_total Y_base
  return ⟨Z_base, Y_base, R_total, X_total, B_total, R_pu, X_pu, B_pu⟩

/-! ## ZIP load model (src/app.py lines 120-140) -/

/-- The real-power formula of `render_zip_load_model` with `c = 1-a-b`
inlined: `P = P0 * (a*(V/V0)**2 + b*(V/V0) + c)`. -/
def zip_load_P (p0 v0 a b v : ℚ) : ℚ :=
  p0 * (a * (v / v0) ^ 2 + b * (v / v0) + (1 - a - b))

/-- The reactive-power formula with `f = 1-d-e` inlined:
`Q = Q0 * (d*(V/V0)**2 + e*(V/V0) + f)`. -/
def zip_load_Q (q0 v0 d e v : ℚ) : ℚ :=
  q0 * (d * (v / v0) ^ 2 + e * (v / v0) + (1 - d - e))

/-- Embeds the ZIP load evaluation at one operating voltage; the shared
subterm `V/V0` is Python division, raising when `v0 = 0`. -/
def zip_load (p0 q0 v0 a b d e v : ℚ) : Except CalcError (ℚ × ℚ) := do
  let vr ← pyDiv v v0
  return (p0 * (a * vr ^ 2 + b * vr + (1 - a - b)),
    q0 * (d * vr ^ 2 + e * vr + (1 - d - e)))

/-- Embeds `np.linspace(lo, hi, n)`: `n` evenly spaced samples whose
`i`-th entry is `lo + i*(hi-lo)/(n-1)`. -/
def linspace (lo hi : ℚ) (n : ℕ) : List ℚ :=
  (List.range n).map (fun (i : ℕ) => lo + (i : ℚ) * (hi - lo) / ((n : ℚ) - 1))

/-- Embeds the curve generation of `render_zip_load_model`:
`Vs = np.linspace(0.5, 1.5, 200)` with the vectorized `Pcurve` and
`Qcurve` expressions, as a list of `(voltage, P, Q)` triples. -/
def zip_curve (p0 q0 v0 a b d e : ℚ) : List (ℚ × ℚ × ℚ) :=
  (linspace (1/2) (3/2) 200).map
    (fun v => (v, zip_load_P p0 v0 a b v, zip_load_Q q0 v0 d e v))

/-! ## Result exporters (src/app.py lines 18-36) -/

/-- A value of a result mapping: a number or a string, the two kinds the
app's result dictionaries hold. -/
inductive Value where
  | int (n : ℤ)
  | str (s : String)
deriving DecidableEq, Repr

/-- Textual rendering of a value, as the CSV writer prints it. -/
def renderValue : Value → String
  | .int n => toString n
  | .str s => s

/-- Comma-join of the fields of one CSV row. -/
def joinComma : List String → String
  | [] => ""
  | [s] => s
  | s :: rest => s ++ "," ++ joinComma rest

/-- True when pandas' default QUOTE_MINIMAL mode must quote the field:
it contains the delimiter, the quote character, or a line-terminator
character. -/
def needsQuote (s : List Char) : Bool :=
  s.any (fun c => c == ',' || c == '"' || c == '\n' || c == '\r')

/-- Doubles every quote character: the CSV escape inside a quoted
field. -/
def escapeQuotes : List Char → List Char
  | [] => []
  | c :: cs =>
    if c = '"' then '"' :: '"' :: escapeQuotes cs else c :: escapeQuotes cs

/-- One CSV field as the `csv` writer under pandas `to_csv` emits it:
wrapped in quotes with embedded quotes doubled when it contains a
comma, quote or line terminator, and verbatim otherwise. -/
def encodeField (s : String) : String :=
  if needsQuote s.data then String.mk ('"' :: (escapeQuotes s.data ++ ['"']))
  else s

/-- Embeds `export_csv`: `pd.DataFrame([data_dict]).to_csv(index=False)`
emits the header row of encoded labels, a newline, the row of encoded
rendered values, and a trailing newline, in the mapping's insertion
order. -/
def export_csv (data : List (String × Value)) : String :=
  joinComma ((data.map (fun kv => kv.1)).map encodeField) ++ "\n" ++
    joinComma ((data.map (fun kv => renderValue kv.2)).map encodeField) ++ "\n"

/-- The UTF-8 byte buffer `export_csv` returns (`.encode("utf-8")`). -/
def export_csv_bytes (data : List (String × Value)) : ByteArray :=
  (export_csv data).toUTF8

/-- Parser state of the CSV reader: outside quotes, inside a quoted
field, or just after a quote inside a quoted field (where a second
quote means an escaped literal quote). -/
inductive ScanState where
  | plain
  | quoted
  | afterQuote
deriving DecidableEq, Repr

/-- Prepends a character to the current (first) field of the first
row. -/
def consChar (c : Char) : List (List (List Char)) → List (List (List Char))
  | (f :: fs) :: rows => ((c :: f) :: fs) :: rows
  | [] :: rows => [[c]] :: rows
  | [] => [[[c]]]

/-- Opens a new field in front of the first row (a comma was read). -/
def newFieldCons : List (List (List Char)) → List (List (List Char))
  | row :: rows => ([] :: row) :: rows
  | [] => [[[]]]

/-- One-pass CSV reader: splits a character stream into rows of fields,
honouring quoted fields with doubled-quote escapes; rows are separated
by unquoted newlines, fields by unquoted commas. -/
def scan (st : ScanState) : List Char → List (List (List Char))
  | [] => [[[]]]
  | c :: cs =>
    match st with
    | .quoted =>
      if c = '"' then scan .afterQuote cs
      else consChar c (scan .quoted cs)
    | .afterQuote =>
      if c = '"' then consChar '"' (scan .quoted cs)
      else if c = ',' then newFieldCons (scan .plain cs)
      else if c = '\n' then [[]] :: scan .plain cs
      else consChar c (scan .plain cs)
    | .plain =>
      if c = ',' then newFieldCons (scan .plain cs)
      else if c = '\n' then [[]] :: scan .plain cs
      else if c = '"' then scan .quoted cs
      else consChar c (scan .plain cs)

/-- A CSV reader for the round-trip check: scan the text into rows of
fields and drop the empty row produced by a trailing line
terminator. -/
def parse_csv (s : String) : List (List String) :=
  (if (scan .plain s.data).getLast? = some [[]] then
    (scan .plain s.data).dropLast
  else scan .plain s.data).map (fun row => row.map String.mk)

/-- One drawing operation of the PDF document builder (`FPDF` calls). -/
inductive PdfOp where
  | setFont (family style : String) (size : ℕ)
  | cell (w h : ℕ) (txt align : String)
  | lineBreak (h : ℕ)
deriving DecidableEq, Repr

/-- Embeds `export_pdf`: a centered bold 16pt `Arial` title cell, a line
break, then one 12pt body cell per `label: value` pair, top to bottom in
insertion order. -/
def export_pdf_ops (data : List (String × Value)) (title : String) :
    List PdfOp :=
  [.setFont "Arial" "B" 16, .cell 200 10 title "C", .lineBreak 10,
    .setFont "Arial" "" 12] ++
    data.map (fun kv => .cell 200 10 (kv.1 ++ ": " ++ renderValue kv.2) "")

/-- The ambient state visible to the exporters: the file system and the
system clock.  Both exporters build in-memory buffers (`BytesIO`) and
never touch the files; `FPDF.output` reads the clock. -/
structure World where
  files : List (String × List UInt8)
  now : ℕ

/-- The in-memory byte buffer `export_pdf` returns, as `FPDF.output`
produces it: the document's drawing operations together with the
creation timestamp that the library reads from the system clock
(`datetime.now()`) and embeds in the output as its `CreationDate`
metadata. -/
structure PdfBuffer where
  ops : List PdfOp
  creationDate : ℕ
deriving DecidableEq, Repr

/-- The CSV exporter as a state-passing computation over the ambient
world: it returns an in-memory buffer and passes the world through. -/
def export_csv_run (w : World) (data : List (String × Value)) :
    ByteArray × World :=
  (export_csv_bytes data, w)

/-- The PDF exporter as a state-passing computation over the ambient
world: the drawing operations depend only on the inputs, the embedded
creation timestamp is read from the world's clock, and the file system
is passed through untouched. -/
def export_pdf_run (w : World) (data : List (String × Value))
    (title : String) : PdfBuffer × World :=
  (⟨export_pdf_ops data title, w.now⟩, w)

end ElecApp

namespace ElecApp

/-- Helper: on nonzero `base_mva` and `base_kv` the per-unit computation
succeeds and every field is given by the source's formula. -/
theorem per_unit_ok (mva kv len r x b : ℚ) (hm : mva ≠ 0) (hk : kv ≠ 0) :
    per_unit mva kv len r x b =
      .ok ⟨kv ^ 2 / mva, 1 / (kv ^ 2 / mva), r * len, x * len, b * len,
        r * len / (kv ^ 2 / mva), x * len / (kv ^ 2 / mva),
        b * len / (1 / (kv ^ 2 / mva))⟩ := by
  have hz : kv ^ 2 / mva ≠ 0 := div_ne_zero (pow_ne_zero 2 hk) hm
  have hy : (kv ^ 2 / mva)⁻¹ ≠ 0 := inv_ne_zero hz
  simp [per_unit, pyDiv, bind, Except.bind, Functor.map, Except.map,
    pure, Except.pure, hm, hk, hz, hy, one_div]

/-- Helper: bound on the absolute difference of two rationals from the
two one-sided bounds. -/
theorem abs_sub_lt_of_bounds {a b c : ℚ} (h1 : a - b < c) (h2 : b - a < c) :
    |a - b| < c :=
  abs_sub_lt_iff.mpr ⟨h1, h2⟩

/-- Helper: on nonzero `v0` the ZIP load evaluation succeeds with the
two closed-form formulas. -/
theorem zip_load_ok (p0 q0 v0 a b d e v : ℚ) (h : v0 ≠ 0) :
    zip_load p0 q0 v0 a b d e v =
      .ok (zip_load_P p0 v0 a b v, zip_load_Q q0 v0 d e v) := by
  simp [zip_load, pyDiv, bind, Except.bind, pure, Except.pure,
    zip_load_P, zip_load_Q, h]

/-- Helper: the `i`-th sample of the ZIP curve is the voltage
`1/2 + i/199` paired with the two formula values there. -/
theorem zip_curve_getElem (p0 q0 v0 a b d e : ℚ) (i : ℕ)
    (h : i < (zip_curve p0 q0 v0 a b d e).length) :
    (zip_curve p0 q0 v0 a b d e)[i] =
      (1/2 + (i : ℚ)/199, zip_load_P p0 v0 a b (1/2 + (i : ℚ)/199),
        zip_load_Q q0 v0 d e (1/2 + (i : ℚ)/199)) := by
  have hv : (1 : ℚ)/2 + (i : ℚ) * ((3 : ℚ)/2 - 1/2) / (((200 : ℕ) : ℚ) - 1) =
      1/2 + (i : ℚ)/199 := by
    push_cast
    norm_num
  simp only [zip_curve, linspace] at h ⊢
  simp only [List.getElem_map, List.getElem_range]
  rw [hv]

/-- C1: `bmi` fails with the division-by-zero domain error for every
height ≤ 0, returns `weight / height²` for every height > 0, and
`bmi 70 1.75` is within 0.001 of 22.857. -/
theorem bmi_spec :
    (∀ w h : ℚ, (h ≤ 0 → bmi w h = .error .divisionByZero) ∧
      (0 < h → bmi w h = .ok (w / h ^ 2))) ∧
    (∃ r : ℚ, bmi 70 (7/4) = .ok r ∧ |r - 22857/1000| < 1/1000) := by
  constructor
  · intro w h
    constructor
    · intro hle
      simp [bmi, not_lt.mpr hle]
    · intro hpos
      simp [bmi, hpos]
  · refine ⟨160/7, ?_, ?_⟩
    · norm_num [bmi]
    · have h1 : (160 : ℚ)/7 - 22857/1000 = 1/7000 := by norm_num
      rw [h1, abs_of_pos (by norm_num)]
      norm_num

/-- Witness for C1 at weight 70 kg, height 1.75 m. -/
theorem bmi_spec_witness : bmi 70 (7/4) = .ok (70 / (7/4) ^ 2) :=
  (bmi_spec.1 70 (7/4)).2 (by norm_num)

/-- C5: the standard converter scales by 1/1000 for LENGTH and by 1000
for MASS, with no error case, and the LENGTH-then-MASS round trip is the
identity (exactly, over exact rational arithmetic). -/
theorem convert_length_mass_spec :
    ∀ v : ℚ, convert_length_mass v .LENGTH = v / 1000 ∧
      convert_length_mass v .MASS = v * 1000 ∧
      convert_length_mass (convert_length_mass v .LENGTH) .MASS = v := by
  intro v
  refine ⟨rfl, rfl, ?_⟩
  show v / 1000 * 1000 = v
  ring

/-- C6: the temperature converter computes `t*9/5 + 32` and
`(t - 32)*5/9`, and the C→F→C round trip is the identity (exactly, over
exact rational arithmetic). -/
theorem convert_temperature_spec :
    ∀ t : ℚ, convert_temperature t .C_TO_F = t * 9 / 5 + 32 ∧
      convert_temperature t .F_TO_C = (t - 32) * 5 / 9 ∧
      convert_temperature (convert_temperature t .C_TO_F) .F_TO_C = t := by
  intro t
  refine ⟨rfl, rfl, ?_⟩
  show (t * 9 / 5 + 32 - 32) * 5 / 9 = t
  ring

/-- C2: for positive bases and nonnegative length the per-unit
computation returns `Z_base = base_kv²/base_mva`, totals equal to the
per-km values times the length, `R_pu = R_total/Z_base`,
`X_pu = X_total/Z_base`, and `B_pu = B_total/Y_base = B_total*Z_base`;
at the input `(100, 13.8, 10, 0.1, 0.3, 0.0002)` it gives
`Z_base = 1.9044`, `R_total = 1`, `X_total = 3`, `B_total = 0.002`,
`R_pu ≈ 0.5251`, `X_pu ≈ 1.5753`, `B_pu ≈ 0.003809`. -/
theorem per_unit_formula_spec :
    (∀ mva kv len r x b : ℚ, 0 < mva → 0 < kv → 0 ≤ len →
      per_unit mva kv len r x b =
        .ok ⟨kv ^ 2 / mva, 1 / (kv ^ 2 / mva), r * len, x * len, b * len,
          r * len / (kv ^ 2 / mva), x * len / (kv ^ 2 / mva),
          b * len / (1 / (kv ^ 2 / mva))⟩ ∧
      b * len / (1 / (kv ^ 2 / mva)) = b * len * (kv ^ 2 / mva)) ∧
    (∃ res : PerUnitResult,
      per_unit 100 (69/5) 10 (1/10) (3/10) (1/5000) = .ok res ∧
      res.Z_base = 19044/10000 ∧ res.R_total = 1 ∧ res.X_total = 3 ∧
      res.B_total = 2/1000 ∧
      |res.R_pu - 5251/10000| < 1/10000 ∧
      |res.X_pu - 15753/10000| < 1/10000 ∧
      |res.B_pu - 3809/1000000| < 1/1000000) := by
  constructor
  · intro mva kv len r x b hm hk _
    refine ⟨per_unit_ok mva kv len r x b hm.ne' hk.ne', ?_⟩
    rw [one_div, div_inv_eq_mul]
  · refine ⟨_, per_unit_ok 100 (69/5) 10 (1/10) (3/10) (1/5000)
      (by norm_num) (by norm_num), ?_, ?_, ?_, ?_, ?_, ?_, ?_⟩
    · norm_num
    · norm_num
    · norm_num
    · norm_num
    · exact abs_sub_lt_of_bounds (by norm_num) (by norm_num)
    · exact abs_sub_lt_of_bounds (by norm_num) (by norm_num)
    · exact abs_sub_lt_of_bounds (by norm_num) (by norm_num)

/-- Witness for C2 at the input `(100, 13.8, 10, 0.1, 0.3, 0.0002)`. -/
theorem per_unit_formula_spec_witness :
    per_unit 100 (69/5) 10 (1/10) (3/10) (1/5000) =
      .ok ⟨(69/5) ^ 2 / 100, 1 / ((69/5) ^ 2 / 100), 1/10 * 10, 3/10 * 10,
        1/5000 * 10, 1/10 * 10 / ((69/5) ^ 2 / 100),
        3/10 * 10 / ((69/5) ^ 2 / 100),
        1/5000 * 10 / (1 / ((69/5) ^ 2 / 100))⟩ :=
  (per_unit_formula_spec.1 100 (69/5) 10 (1/10) (3/10) (1/5000)
    (by norm_num) (by norm_num) (by norm_num)).1

/-- C7 counterexample: at `base_mva = 1 ≠ 0` and `base_kv = 0` the
per-unit computation still fails with a division-by-zero error (at
`Y_base = 1/Z_base`), so it does not succeed for every
`base_mva ≠ 0`. -/
theorem per_unit_nonzero_mva_cex :
    (1 : ℚ) ≠ 0 ∧
      per_unit 1 0 10 (1/10) (3/10) (1/5000) = .error .divisionByZero := by
  refine ⟨by norm_num, ?_⟩
  norm_num [per_unit, pyDiv, bind, Except.bind]

/-- C7 amended: the per-unit computation fails with a division-by-zero
error when `base_mva = 0` (at `Z_base = base_kv²/base_mva`), also fails
with a division-by-zero error when `base_mva ≠ 0` but `base_kv = 0` (at
`Y_base = 1/Z_base`), and succeeds whenever `base_mva ≠ 0` and
`base_kv ≠ 0`. -/
theorem per_unit_error_spec :
    ∀ mva kv len r x b : ℚ,
      (mva = 0 → per_unit mva kv len r x b = .error .divisionByZero) ∧
      (mva ≠ 0 → kv = 0 →
        per_unit mva kv len r x b = .error .divisionByZero) ∧
      (mva ≠ 0 → kv ≠ 0 →
        ∃ res, per_unit mva kv len r x b = .ok res) := by
  intro mva kv len r x b
  refine ⟨?_, ?_, ?_⟩
  · intro h
    simp [per_unit, pyDiv, bind, Except.bind, h]
  · intro hm hk
    subst hk
    simp [per_unit, pyDiv, bind, Except.bind, hm]
  · intro hm hk
    exact ⟨_, per_unit_ok mva kv len r x b hm hk⟩

/-- Witness for C7 (amended) at `base_mva = 0`. -/
theorem per_unit_error_spec_witness :
    per_unit 0 (69/5) 10 (1/10) (3/10) (1/5000) = .error .divisionByZero :=
  (per_unit_error_spec 0 (69/5) 10 (1/10) (3/10) (1/5000)).1 rfl

/-- C10: with positive bases and `length_km = 0`, every total and every
per-unit value is zero, regardless of the per-km parameters. -/
theorem per_unit_zero_length_spec :
    ∀ mva kv r x b : ℚ, 0 < mva → 0 < kv →
      per_unit mva kv 0 r x b =
        .ok ⟨kv ^ 2 / mva, 1 / (kv ^ 2 / mva), 0, 0, 0, 0, 0, 0⟩ := by
  intro mva kv r x b hm hk
  rw [per_unit_ok mva kv 0 r x b hm.ne' hk.ne']
  norm_num

/-- C3: for `p0, q0, v0 > 0` and arbitrary coefficients `a, b, d, e`
(no validation, also outside `[0,1]`) and any `v`, the ZIP load returns
`P = p0*(a*(v/v0)² + b*(v/v0) + (1-a-b))` and
`Q = q0*(d*(v/v0)² + e*(v/v0) + (1-d-e))`; at
`(p0, q0, v0, a, b) = (100, 50, 1, 0.5, 0.3)` it gives `P = 100` at
`v = 1` and `P = 100*c = 20` at `v = 0`, for every `d, e`. -/
theorem zip_load_spec :
    (∀ p0 q0 v0 a b d e v : ℚ, 0 < p0 → 0 < q0 → 0 < v0 →
      zip_load p0 q0 v0 a b d e v =
        .ok (p0 * (a * (v/v0) ^ 2 + b * (v/v0) + (1 - a - b)),
          q0 * (d * (v/v0) ^ 2 + e * (v/v0) + (1 - d - e)))) ∧
    (∀ d e : ℚ, ∃ qv : ℚ,
      zip_load 100 50 1 (1/2) (3/10) d e 1 = .ok (100, qv)) ∧
    (∀ d e : ℚ, ∃ qv : ℚ,
      zip_load 100 50 1 (1/2) (3/10) d e 0 = .ok (20, qv)) := by
  refine ⟨?_, ?_, ?_⟩
  · intro p0 q0 v0 a b d e v _ _ hv0
    exact zip_load_ok p0 q0 v0 a b d e v hv0.ne'
  · intro d e
    refine ⟨zip_load_Q 50 1 d e 1, ?_⟩
    rw [zip_load_ok 100 50 1 (1/2) (3/10) d e 1 one_ne_zero]
    norm_num [zip_load_P]
  · intro d e
    refine ⟨zip_load_Q 50 1 d e 0, ?_⟩
    rw [zip_load_ok 100 50 1 (1/2) (3/10) d e 0 one_ne_zero]
    norm_num [zip_load_P]

/-- Witness for C3 at `(100, 50, 1, 0.5, 0.3, 0, 0, 1)`. -/
theorem zip_load_spec_witness :
    zip_load 100 50 1 (1/2) (3/10) 0 0 1 =
      .ok (100 * (1/2 * ((1 : ℚ)/1) ^ 2 + 3/10 * ((1 : ℚ)/1) + (1 - 1/2 - 3/10)),
        50 * (0 * ((1 : ℚ)/1) ^ 2 + 0 * ((1 : ℚ)/1) + (1 - 0 - 0))) :=
  zip_load_spec.1 100 50 1 (1/2) (3/10) 0 0 1
    (by norm_num) (by norm_num) (by norm_num)

/-- C4: for `p0, q0, v0 > 0` and any coefficients, the curve has
exactly 200 samples, the `i`-th voltage is `1/2 + i/199` (even spacing),
both endpoints 0.5 and 1.5 occur, consecutive voltages differ by
`1/199`, the voltages are strictly increasing, and each sample's
`(P, Q)` pair equals the ZIP load evaluated at that sample's voltage. -/
theorem zip_curve_spec :
    ∀ p0 q0 v0 a b d e : ℚ, 0 < p0 → 0 < q0 → 0 < v0 →
      (zip_curve p0 q0 v0 a b d e).length = 200 ∧
      (∀ i : ℕ, ∀ h : i < (zip_curve p0 q0 v0 a b d e).length,
        ((zip_curve p0 q0 v0 a b d e)[i]).1 = 1/2 + (i : ℚ)/199) ∧
      ((1 : ℚ)/2) ∈ (zip_curve p0 q0 v0 a b d e).map (fun s => s.1) ∧
      ((3 : ℚ)/2) ∈ (zip_curve p0 q0 v0 a b d e).map (fun s => s.1) ∧
      (∀ i : ℕ, ∀ h : i + 1 < (zip_curve p0 q0 v0 a b d e).length,
        ((zip_curve p0 q0 v0 a b d e)[i + 1]).1 -
          ((zip_curve p0 q0 v0 a b d e)[i]).1 = 1/199) ∧
      List.Pairwise (fun s t => s.1 < t.1) (zip_curve p0 q0 v0 a b d e) ∧
      (∀ i : ℕ, ∀ h : i < (zip_curve p0 q0 v0 a b d e).length,
        zip_load p0 q0 v0 a b d e ((zip_curve p0 q0 v0 a b d e)[i]).1 =
          .ok (((zip_curve p0 q0 v0 a b d e)[i]).2.1,
            ((zip_curve p0 q0 v0 a b d e)[i]).2.2)) := by
  intro p0 q0 v0 a b d e _ _ hv0
  have hlen : (zip_curve p0 q0 v0 a b d e).length = 200 := by
    simp [zip_curve, linspace]
  refine ⟨hlen, ?_, ?_, ?_, ?_, ?_, ?_⟩
  · intro i h
    rw [zip_curve_getElem p0 q0 v0 a b d e i h]
  · refine List.mem_map.mpr ⟨(zip_curve p0 q0 v0 a b d e)[0], ?_, ?_⟩
    · exact List.getElem_mem (by rw [hlen]; norm_num)
    · rw [zip_curve_getElem p0 q0 v0 a b d e 0 (by rw [hlen]; norm_num)]
      norm_num
  · refine List.mem_map.mpr ⟨(zip_curve p0 q0 v0 a b d e)[199], ?_, ?_⟩
    · exact List.getElem_mem (by rw [hlen]; norm_num)
    · rw [zip_curve_getElem p0 q0 v0 a b d e 199 (by rw [hlen]; norm_num)]
      norm_num
  · intro i h
    have h' : i < (zip_curve p0 q0 v0 a b d e).length := Nat.lt_of_succ_lt h
    rw [zip_curve_getElem p0 q0 v0 a b d e (i + 1) h,
      zip_curve_getElem p0 q0 v0 a b d e i h']
    push_cast
    ring
  · rw [List.pairwise_iff_getElem]
    intro i j hi hj hij
    rw [zip_curve_getElem p0 q0 v0 a b d e i hi,
      zip_curve_getElem p0 q0 v0 a b d e j hj]
    have hc : (i : ℚ) < (j : ℚ) := by exact_mod_cast hij
    simp only []
    linarith
  · intro i h
    rw [zip_curve_getElem p0 q0 v0 a b d e i h]
    exact zip_load_ok p0 q0 v0 a b d e _ hv0.ne'

/-- Witness for C4 at `(1, 1, 1, 0, 0, 0, 0)`. -/
theorem zip_curve_spec_witness :
    (0 : ℚ) < 1 ∧ (zip_curve 1 1 1 0 0 0 0).length = 200 :=
  ⟨by norm_num,
    (zip_curve_spec 1 1 1 0 0 0 0 (by norm_num) (by norm_num)
      (by norm_num)).1⟩

/-- Witness for C10 at the bases `(100, 13.8)`. -/
theorem per_unit_zero_length_witness :
    per_unit 100 (69/5) 0 (1/10) (3/10) (1/5000) =
      .ok ⟨(69/5) ^ 2 / 100, 1 / ((69/5) ^ 2 / 100), 0, 0, 0, 0, 0, 0⟩ :=
  per_unit_zero_length_spec 100 (69/5) (1/10) (3/10) (1/5000)
    (by norm_num) (by norm_num)

/-- Helper: just after a closing quote the reader behaves as outside
quotes on any character other than a quote. -/
theorem scan_afterQuote_eq_plain (c : Char) (cs : List Char)
    (h : ¬ c = '"') :
    scan .afterQuote (c :: cs) = scan .plain (c :: cs) := by
  simp [scan, h]

/-- Helper: a run of ordinary characters (no comma, quote or newline)
read outside quotes is prepended to the current field. -/
theorem scan_plain_safe (f cs : List Char) (g : List Char)
    (fs : List (List Char)) (rows : List (List (List Char)))
    (hf : ∀ c ∈ f, ¬c = ',' ∧ ¬c = '"' ∧ ¬c = '\n')
    (h : scan .plain cs = (g :: fs) :: rows) :
    scan .plain (f ++ cs) = ((f ++ g) :: fs) :: rows := by
  induction f with
  | nil => simpa using h
  | cons x xs ih =>
    obtain ⟨h1, h2, h3⟩ := hf x (List.mem_cons_self x xs)
    have hrec := ih (fun c hc => hf c (List.mem_cons_of_mem x hc))
    show scan .plain (x :: (xs ++ cs)) = _
    simp only [scan, if_neg h1, if_neg h2, if_neg h3]
    rw [hrec]
    simp [consChar]

/-- Helper: the escaped body of a quoted field, followed by the closing
quote, is prepended verbatim to the current field, leaving the reader
just after the closing quote. -/
theorem scan_quoted_escape (f cs : List Char) (g : List Char)
    (fs : List (List Char)) (rows : List (List (List Char)))
    (h : scan .afterQuote cs = (g :: fs) :: rows) :
    scan .quoted (escapeQuotes f ++ '"' :: cs) = ((f ++ g) :: fs) :: rows := by
  induction f with
  | nil =>
    show scan .quoted ('"' :: cs) = _
    simp [scan, h]
  | cons x xs ih =>
    by_cases hx : x = '"'
    · subst hx
      rw [show escapeQuotes ('"' :: xs) = '"' :: '"' :: escapeQuotes xs from by
        simp [escapeQuotes]]
      simp only [List.cons_append]
      rw [show scan .quoted ('"' :: ('"' :: (escapeQuotes xs ++ '"' :: cs))) =
        scan .afterQuote ('"' :: (escapeQuotes xs ++ '"' :: cs)) from by
          simp [scan]]
      rw [show scan .afterQuote ('"' :: (escapeQuotes xs ++ '"' :: cs)) =
        consChar '"' (scan .quoted (escapeQuotes xs ++ '"' :: cs)) from by
          simp [scan]]
      rw [ih]
      simp [consChar]
    · show scan .quoted (escapeQuotes (x :: xs) ++ '"' :: cs) = _
      simp only [escapeQuotes, if_neg hx, List.cons_append]
      rw [show scan .quoted (x :: (escapeQuotes xs ++ '"' :: cs)) =
        consChar x (scan .quoted (escapeQuotes xs ++ '"' :: cs)) from by
          simp [scan, hx]]
      rw [ih]
      simp [consChar]

/-- Helper: one encoded field read outside quotes is prepended, decoded,
to the current field, whenever the continuation does not begin with a
quote. -/
theorem scan_encodeField (s : String) (cs : List Char) (g : List Char)
    (fs : List (List Char)) (rows : List (List (List Char)))
    (hcs : cs = [] ∨ ∃ c cs', cs = c :: cs' ∧ ¬c = '"')
    (h : scan .plain cs = (g :: fs) :: rows) :
    scan .plain ((encodeField s).data ++ cs) = ((s.data ++ g) :: fs) :: rows := by
  by_cases hq : needsQuote s.data
  · have hafter : scan .afterQuote cs = (g :: fs) :: rows := by
      rcases hcs with hnil | ⟨c, cs', hc, hcne⟩
      · subst hnil
        rw [show scan .afterQuote [] = scan .plain [] from rfl, h]
      · subst hc
        rw [scan_afterQuote_eq_plain c cs' hcne, h]
    have hdata : (encodeField s).data = '"' :: (escapeQuotes s.data ++ ['"']) := by
      simp [encodeField, hq]
    rw [hdata]
    show scan .plain ('"' :: ((escapeQuotes s.data ++ ['"']) ++ cs)) = _
    rw [show scan .plain ('"' :: ((escapeQuotes s.data ++ ['"']) ++ cs)) =
      scan .quoted ((escapeQuotes s.data ++ ['"']) ++ cs) from by simp [scan]]
    rw [List.append_assoc]
    exact scan_quoted_escape s.data cs g fs rows hafter
  · have hdata : (encodeField s).data = s.data := by
      simp [encodeField, hq]
    rw [hdata]
    refine scan_plain_safe s.data cs g fs rows ?_ h
    intro c hc
    have hfalse := List.any_eq_false.mp (Bool.of_not_eq_true hq) c hc
    simp only [Bool.or_eq_true, beq_iff_eq, not_or] at hfalse
    obtain ⟨⟨⟨hA, hB⟩, hC⟩, _⟩ := hfalse
    exact ⟨hA, hB, hC⟩

/-- Helper: one encoded CSV row followed by a newline scans to exactly
the row's raw fields, in order, on top of the rest of the stream. -/
theorem scan_row_nl (row : List String) (cs : List Char) (hne : row ≠ []) :
    scan .plain ((joinComma (row.map encodeField)).data ++ '\n' :: cs) =
      row.map String.data :: scan .plain cs := by
  induction row with
  | nil => exact absurd rfl hne
  | cons s rest ih =>
    cases rest with
    | nil =>
      show scan .plain ((encodeField s).data ++ '\n' :: cs) = _
      have hsh : scan .plain ('\n' :: cs) =
          ([] :: []) :: scan .plain cs := by
        simp [scan]
      rw [scan_encodeField s ('\n' :: cs) [] [] (scan .plain cs)
        (Or.inr ⟨'\n', cs, rfl, by decide⟩) hsh]
      simp
    | cons t ts =>
      have hX : scan .plain
          ((joinComma (List.map encodeField (t :: ts))).data ++ '\n' :: cs) =
            List.map String.data (t :: ts) :: scan .plain cs := ih (by simp)
      have hcomma : scan .plain
          (',' :: ((joinComma (List.map encodeField (t :: ts))).data ++
            '\n' :: cs)) =
          ([] :: List.map String.data (t :: ts)) :: scan .plain cs := by
        rw [show scan .plain
          (',' :: ((joinComma (List.map encodeField (t :: ts))).data ++
            '\n' :: cs)) =
          newFieldCons (scan .plain
            ((joinComma (List.map encodeField (t :: ts))).data ++
              '\n' :: cs))
          from by simp [scan]]
        rw [hX]
        rfl
      have hmain := scan_encodeField s
        (',' :: ((joinComma (List.map encodeField (t :: ts))).data ++
          '\n' :: cs))
        [] (List.map String.data (t :: ts)) (scan .plain cs)
        (Or.inr ⟨',', _, rfl, by decide⟩) hcomma
      have harr : (joinComma (List.map encodeField (s :: t :: ts))).data ++
          '\n' :: cs =
          (encodeField s).data ++ ',' ::
            ((joinComma (List.map encodeField (t :: ts))).data ++
              '\n' :: cs) := by
        show ((encodeField s ++ ",") ++
          joinComma (List.map encodeField (t :: ts))).data ++ '\n' :: cs = _
        rw [String.data_append, String.data_append]
        simp
      rw [harr, hmain]
      simp

/-- Helper: parsing the serialized CSV text of a non-empty mapping
recovers exactly the header row of labels and the data row of rendered
values. -/
theorem export_csv_parse (data : List (String × Value)) (hne : data ≠ []) :
    parse_csv (export_csv data) =
      [data.map (fun kv => kv.1), data.map (fun kv => renderValue kv.2)] := by
  have hL : data.map (fun kv => kv.1) ≠ [] := by simpa using hne
  have hV : data.map (fun kv => renderValue kv.2) ≠ [] := by simpa using hne
  have hsplit : (export_csv data).data =
      (joinComma ((data.map (fun kv => kv.1)).map encodeField)).data ++
        '\n' ::
        ((joinComma
          ((data.map (fun kv => renderValue kv.2)).map encodeField)).data ++
          '\n' :: []) := by
    show ((joinComma ((data.map (fun kv => kv.1)).map encodeField) ++ "\n" ++
      joinComma ((data.map (fun kv => renderValue kv.2)).map encodeField) ++
      "\n")).data = _
    rw [String.data_append, String.data_append, String.data_append]
    simp
  have hscan : scan .plain (export_csv data).data =
      (data.map (fun kv => kv.1)).map String.data ::
        (data.map (fun kv => renderValue kv.2)).map String.data :: [[[]]] := by
    rw [hsplit, scan_row_nl _ _ hL, scan_row_nl _ _ hV]
    rfl
  simp only [parse_csv]
  rw [hscan]
  simp [List.map_map, Function.comp]

/-- C8: for every non-empty mapping — labels and rendered values
arbitrary, commas, quotes and newlines included — the CSV serializer
emits exactly one header row holding the labels and one data row
holding the values, in insertion order (parsing the output recovers
exactly those two rows), UTF-8 encoded; the output always has exactly
two rows; in particular the export of `{"A": 1, "B": "x"}` parses back
to the data row `["1", "x"]` under the header `["A", "B"]`, and a
comma-containing field like the app's own `"Coeffs a,b,c"` label
round-trips through the quoting. -/
theorem export_csv_spec :
    (∀ data : List (String × Value), data ≠ [] →
      parse_csv (export_csv data) =
        [data.map (fun kv => kv.1),
          data.map (fun kv => renderValue kv.2)] ∧
      export_csv_bytes data = (export_csv data).toUTF8) ∧
    (∀ data : List (String × Value),
      (parse_csv (export_csv data)).length = 2) ∧
    parse_csv (export_csv [("A", .int 1), ("B", .str "x")]) =
      [["A", "B"], ["1", "x"]] ∧
    parse_csv (export_csv [("Coeffs a,b,c", .str "0.50, 0.30, 0.20")]) =
      [["Coeffs a,b,c"], ["0.50, 0.30, 0.20"]] := by
  refine ⟨fun data hne => ⟨export_csv_parse data hne, rfl⟩, ?_, ?_, ?_⟩
  · intro data
    cases data with
    | nil => decide
    | cons p ps =>
      rw [export_csv_parse (p :: ps) (by simp)]
      rfl
  · decide
  · decide

/-- Witness for C8 at the mapping `{"A": 1, "B": "x"}`. -/
theorem export_csv_spec_witness :
    parse_csv (export_csv [("A", Value.int 1), ("B", Value.str "x")]) =
      [[("A" : String), "B"], ["1", "x"]] ∧
    export_csv_bytes [("A", Value.int 1), ("B", Value.str "x")] =
      (export_csv [("A", Value.int 1), ("B", Value.str "x")]).toUTF8 :=
  export_csv_spec.1 [("A", Value.int 1), ("B", Value.str "x")] (by simp)

/-- C9 counterexample: the same mapping and title exported in two worlds
whose clocks differ yield different PDF byte buffers, because
`FPDF.output` embeds the clock's creation timestamp — so two
invocations on the same inputs need not return identical buffers. -/
theorem export_pdf_run_cex :
    (export_pdf_run ⟨[], 0⟩ [("A", Value.int 1)] "T").1 ≠
      (export_pdf_run ⟨[], 1⟩ [("A", Value.int 1)] "T").1 := by
  decide

/-- C9 amended: the CSV serializer is deterministic — identical byte
buffers in any two ambient worlds — and both serializers pass the world
(in particular the file system) through unchanged, with the PDF's
drawing content a function of the mapping and title alone; but the PDF
buffer embeds the creation timestamp read from the system clock, so two
PDF invocations return identical byte buffers exactly when the clock
reads agree. -/
theorem export_run_pure_amended :
    ∀ (w w' : World) (data : List (String × Value)) (title : String),
      (export_csv_run w data).1 = (export_csv_run w' data).1 ∧
      (export_csv_run w data).2 = w ∧
      (export_pdf_run w data title).1.ops =
        (export_pdf_run w' data title).1.ops ∧
      (export_pdf_run w data title).1.creationDate = w.now ∧
      (export_pdf_run w data title).2 = w ∧
      ((export_pdf_run w data title).1 = (export_pdf_run w' data title).1 ↔
        w.now = w'.now) := by
  intro w w' data title
  refine ⟨rfl, rfl, rfl, rfl, rfl, ?_⟩
  constructor
  · intro h
    exact congrArg PdfBuffer.creationDate h
  · intro h
    simp [export_pdf_run, h]

end ElecApp
